import Mathlib

/-!
Shallow embedding of `src/visualize_gc_spreads.py`, a single-pass pandas /
matplotlib script that loads a CSV of repo rates and produces seven charts.

Modelling conventions:
* a pandas cell is `Option ℚ` (`none` = NaN / missing, `some q` = a finite
  numeric value; the script only does exact-representable arithmetic on the
  claims we check, so rationals stand in for IEEE doubles);
* dates (`pd.Timestamp`) are `ℕ` (only equality and order matter);
* a `DataFrame` after the loader is a `Table`: a list of column names, a
  list of row timestamps and a row-major matrix of cells, rows aligned with
  the timestamps, cells of each row aligned with the column names;
* a pandas `KeyError` (indexing with a column label that is absent, as in
  `df[cols]`) is modelled by `Option`: `none` means the script raises and
  the run aborts;
* the CSV parsers `pd.to_datetime(errors="coerce")` and
  `pd.to_numeric(errors="coerce")` are library black boxes; the loader is
  parametrised by arbitrary total parse functions returning `Option`,
  which is exactly the "coerce failures to missing" contract.
-/

/-- A pandas cell: `none` is NaN (missing), `some q` a numeric value. -/
abbrev Cell := Option ℚ

/-- The cleaned `DataFrame` `df` of the script: named columns, a timestamp
per row (the `time` column after `dropna(subset=["time"])`), and row-major
cell data aligned with `cols`. -/
structure Table where
  cols : List String
  times : List ℕ
  rows : List (List Cell)
  deriving DecidableEq

/-- `df[c]` for a single column label `c`: `none` models the `KeyError`
raised when `c` is not a column; otherwise the column as a cell series. -/
def Table.getCol (t : Table) (c : String) : Option (List Cell) :=
  (t.cols.findIdx? (fun x => x = c)).map (fun j => t.rows.map (fun r => r.getD j none))

/-- Position of each requested column label among `cols`: `none` as soon
as one label is absent (the pandas `KeyError`). -/
def idxOfAll (cols : List String) : List String → Option (List ℕ)
  | [] => some []
  | c :: cs =>
    (cols.findIdx? (fun x => x = c)).bind
      (fun j => (idxOfAll cols cs).map (fun js => j :: js))

/-- `df[cs]` for a list of column labels: `none` models the `KeyError`
raised when any label is absent; otherwise the selected row-major matrix. -/
def Table.selectCols (t : Table) (cs : List String) : Option (List (List Cell)) :=
  (idxOfAll t.cols cs).map
    (fun js => t.rows.map (fun r => js.map (fun j => r.getD j none)))

/-- Line 35: `base_tenors = ["2Y", "3Y", "5Y", "7Y", "10Y", "20Y", "30Y"]`. -/
def base_tenors : List String := ["2Y", "3Y", "5Y", "7Y", "10Y", "20Y", "30Y"]

/-- Line 36: `gc_col = "GC"`. -/
def gc_col : String := "GC"

/-- Lines 39-44: the `groups` dict, mapping each settlement-term group label
to its column names, built by prefixing every base tenor with the group's
term marker. Note the lists are built unconditionally: presence in the
table is only checked later, inside each chart loop. -/
def groups : List (String × List String) :=
  [("Same-Day", base_tenors),
   ("O (Overnight)", base_tenors.map (fun t => "O" ++ t)),
   ("OO (2-Day)", base_tenors.map (fun t => "OO" ++ t)),
   ("OOO (3-Day)", base_tenors.map (fun t => "OOO" ++ t))]

/-- The `if col in df.columns` guard that every chart's plotting loop
applies to its column list: the effective columns actually plotted. -/
def effectiveCols (t : Table) (cs : List String) : List String :=
  cs.filter (fun c => c ∈ t.cols)

/-! ## Loader (lines 26-32) -/

/-- One cleaned row: `pd.to_datetime(..., errors="coerce")` on the first
cell, keep the row only if the date parsed (`dropna(subset=["time"])`),
and `pd.to_numeric(..., errors="coerce")` on every other cell. -/
def cleanRow (pD : String → Option ℕ) (pN : String → Option ℚ)
    (r : List String) : Option (ℕ × List Cell) :=
  (pD (r.headD "")).map (fun d => (d, (r.drop 1).map pN))

/-- Lines 26-32. `lines` is the raw CSV as a list of records of string
fields. `read_csv(..., skiprows=1)` drops the first (summary) record, takes
the next as the header, and the rest as data rows; an input with no header
record raises (pandas `EmptyDataError`), modelled as `none`. The `time`
column is the first header field; every data cell of the other columns is
numeric-coerced, with failures becoming missing. -/
def loadClean (pD : String → Option ℕ) (pN : String → Option ℚ)
    (lines : List (List String)) : Option Table :=
  match lines.drop 1 with
  | [] => none
  | header :: dataRows =>
    some { cols := header.drop 1,
           times := (dataRows.filterMap (cleanRow pD pN)).map (fun p => p.1),
           rows := (dataRows.filterMap (cleanRow pD pN)).map (fun p => p.2) }

/-! ## Chart 2: spread to GC (lines 84-90) -/

/-- Elementwise pandas `Series` subtraction `df[tenor] - df[gc_col]`:
NaN propagates from either operand. -/
def cellSub : Cell → Cell → Cell
  | some a, some b => some (a - b)
  | _, _ => none

/-- Pairwise subtraction of two equally indexed series. -/
def seriesSub (x y : List Cell) : List Cell :=
  (x.zip y).map (fun p => cellSub p.1 p.2)

/-- Scalar multiplication of a series, `spread * 100`: NaN stays NaN. -/
def seriesScale (c : ℚ) (x : List Cell) : List Cell :=
  x.map (fun v => v.map (fun a => a * c))

/-- Lines 86-88: the series plotted for one tenor in Chart 2,
`(df[tenor] - df[gc_col]) * 100`; `none` if a needed column is absent
(the loop guard skips absent tenors; `df[gc_col]` would raise). -/
def chart2Spread (t : Table) (tenor : String) : Option (List Cell) := do
  let tv ← t.getCol tenor
  let gv ← t.getCol gc_col
  pure (seriesScale 100 (seriesSub tv gv))

/-! ## Chart 1: GC vs tenors, y-axis lower bound (line 77) -/

/-- All present (non-NaN) values of a row-major matrix; pandas `.min()`
skips NaN by default, so the double `min().min()` ranges over these. -/
def presentVals (m : List (List Cell)) : List ℚ :=
  (m.map (fun r => r.filterMap id)).flatten

/-- Minimum of a list of rationals, `none` on the empty list (the NaN that
pandas returns when everything is missing). -/
def listMin (l : List ℚ) : Option ℚ :=
  l.foldr (fun x acc => match acc with
    | none => some x
    | some y => some (min x y)) none

/-- Line 77: `ax.set_ylim(bottom=max(0, df[base_tenors + [gc_col]].min().min() - 0.5))`.
`none` models the `KeyError` raised when a listed column is absent. When
every cell is missing the inner value is NaN and Python's
`max(0, nan)` returns its first argument `0`. -/
def ylimBottom (t : Table) : Option ℚ :=
  (t.selectCols (base_tenors ++ [gc_col])).map (fun m =>
    match listMin (presentVals m) with
    | some v => max 0 (v - 1/2)
    | none => 0)

/-! ## Chart 4: heatmap (lines 124-126) -/

/-- Line 124: `heatmap_cols = [gc_col] + base_tenors`. -/
def heatmap_cols : List String := gc_col :: base_tenors

/-- Lines 124-125: `df.set_index("time")[heatmap_cols].dropna(how="all")`,
as (timestamp, selected cells) pairs; a row survives iff at least one of
its selected cells is present. `none` models the `KeyError` on an absent
column. -/
def heatmapRows (t : Table) : Option (List (ℕ × List Cell)) :=
  (t.selectCols heatmap_cols).map (fun m =>
    (t.times.zip m).filter (fun p => p.2.any (fun c => c.isSome)))

/-! ## Chart 5: rolling volatility (lines 144-152) -/

/-- Sequence a window of cells: `some` of the values iff none is missing.
Pandas `rolling(window=5)` defaults `min_periods` to 5, so a window with
any NaN yields NaN. -/
def seqCells : List Cell → Option (List ℚ)
  | [] => some []
  | c :: l => c.bind (fun v => (seqCells l).map (fun vs => v :: vs))

/-- Sample variance (pandas `std` default `ddof=1`): squared deviations
from the mean, divided by `n - 1`. Only ever applied to the full
5-observation windows, where `n - 1 = 4`. -/
def sampleVar (l : List ℚ) : ℚ :=
  ((l.map (fun x => (x - l.sum / l.length) ^ 2)).sum) / (l.length - 1)

/-- Line 146/151: `series.rolling(window=5).std() * 100`, embedded by the
SQUARE of each output value, since the standard deviation is an
irrational square root of the rational sample variance: entry `i` is
`none` exactly where the pandas output is NaN (fewer than 5 rows so far,
or a NaN inside the window), and otherwise holds
`(std * 100)^2 = 10000 * sampleVar` of the 5-observation window ending at
`i`. The plotted value is the nonnegative square root of this entry. -/
def rollingStdSq100 (xs : List Cell) : List Cell :=
  (List.range xs.length).map (fun i =>
    if i + 1 < 5 then none
    else match seqCells ((xs.drop (i + 1 - 5)).take 5) with
      | some w => some (10000 * sampleVar w)
      | none => none)

/-! ## Chart 6: curve snapshots (lines 163-173) -/

/-- Lines 163-165: `np.linspace(0, len(df) - 1, min(6, len(df)), dtype=int)`,
the selected row positions. `np.linspace` places `min 6 n` points linearly
from `0` to `n - 1`; `dtype=int` truncates each toward zero, which on
these nonnegative values is the floor. -/
def snapshotPositions (n : ℕ) : List ℕ :=
  let m := min 6 n
  if m ≤ 1 then List.range m
  else (List.range m).map
    (fun i : ℕ => (⌊((i : ℚ) * ((n : ℚ) - 1)) / ((m : ℚ) - 1)⌋).toNat)

/-- Modelled from the spec ("linear spacing from 0 to n−1, rounded to
nearest integer"): the same selection with round-to-nearest instead of the
code's truncation, for comparison. -/
def snapshotPositionsRounded (n : ℕ) : List ℕ :=
  let m := min 6 n
  if m ≤ 1 then List.range m
  else (List.range m).map
    (fun i : ℕ => (round (((i : ℚ) * ((n : ℚ) - 1)) / ((m : ℚ) - 1))).toNat)

/-- Line 172: `df[df["time"] == date].iloc[0]` — the FIRST row of the
cleaned table whose timestamp equals `date` (`none` if no row matches,
where the script would raise `IndexError`). -/
def firstRowWithTime (t : Table) (d : ℕ) : Option (List Cell) :=
  (t.times.findIdx? (fun x => x = d)).bind (fun i => t.rows[i]?)

/-- Lines 163-173 combined: the row plotted for each selected snapshot
position, looked up by timestamp equality rather than by position. -/
def snapshotPlottedRows (t : Table) : List (Option (List Cell)) :=
  (snapshotPositions t.times.length).map (fun p =>
    firstRowWithTime t (t.times.getD p 0))

/-! ## Chart 7: correlation matrix (lines 189-191) -/

/-- Line 190: `df[corr_cols].dropna()` restricted-matrix rows — only the
rows with NO missing cell among the selected columns survive. -/
def completeRows (m : List (List Cell)) : List (List ℚ) :=
  m.filterMap seqCells

/-- Lines 189-190: the fully-complete-row data matrix over GC + base
tenors that `corr_df.corr()` consumes; `none` models the `KeyError` on an
absent column. -/
def corrData (t : Table) : Option (List (List ℚ)) :=
  (t.selectCols heatmap_cols).map completeRows

/-- Column `j` of a complete data matrix. -/
def matCol (m : List (List ℚ)) (j : ℕ) : List ℚ :=
  m.map (fun r => r.getD j 0)

/-- Deviations of a series from its mean. -/
def devs (x : List ℚ) : List ℚ :=
  x.map (fun a => a - x.sum / x.length)

/-- Dot product of two equally long series (0-padded on the shorter). -/
def dotL : List ℚ → List ℚ → ℚ
  | a :: u, b :: v => a * b + dotL u v
  | _, _ => 0

/-- Numerator of the Pearson correlation of two equally long series:
the dot product of their deviations from the mean. -/
def corrNum (x y : List ℚ) : ℚ :=
  dotL (devs x) (devs y)

/-- Square of the denominator of the Pearson correlation:
`corr x y = corrNum x y / sqrt (corrDenSq x y)`. The square root is
irrational in general, so the correlation entry is embedded by this
numerator/denominator-squared pair. -/
def corrDenSq (x y : List ℚ) : ℚ :=
  corrNum x x * corrNum y y

/-- The pandas correlation entry is a real number iff the denominator is
nonzero; with a zero denominator (a constant column, or fewer than two
rows) pandas produces NaN. -/
def corrDefined (x y : List ℚ) : Prop := corrDenSq x y ≠ 0

instance (x y : List ℚ) : Decidable (corrDefined x y) := by
  unfold corrDefined; infer_instance

/-- The correlation entry equals exactly 1: it is defined, positive, and
its square `corrNum^2 / corrDenSq` is 1. -/
def corrIsOne (x y : List ℚ) : Prop :=
  corrDefined x y ∧ 0 < corrNum x y ∧ corrNum x y ^ 2 = corrDenSq x y

instance (x y : List ℚ) : Decidable (corrIsOne x y) := by
  unfold corrIsOne; infer_instance

/-! ## Theorems -/

lemma spread_getD (x y : List Cell) (i : ℕ) (hx : i < x.length) (hy : i < y.length) :
    (seriesScale 100 (seriesSub x y)).getD i none =
      Option.map (fun a => a * 100) (cellSub (x.getD i none) (y.getD i none)) := by
  induction x generalizing y i with
  | nil => simp at hx
  | cons a xs ih =>
    cases y with
    | nil => simp at hy
    | cons b ys =>
      cases i with
      | zero => simp [seriesScale, seriesSub]
      | succ n =>
        simp only [List.length_cons, Nat.succ_lt_succ_iff] at hx hy
        simpa [seriesScale, seriesSub, List.getD_cons_succ] using ih ys n hx hy

/-- C1: in the Spread-to-GC chart, for every row index `i`, the plotted
spread equals `100 * (tenor rate - GC rate)` whenever both cells are
present at `i`, and is missing whenever either cell is missing. -/
theorem spread_to_gc_correct (t : Table) (tenor : String) (tv gv s : List Cell)
    (htv : t.getCol tenor = some tv) (hgv : t.getCol gc_col = some gv)
    (hs : chart2Spread t tenor = some s)
    (i : ℕ) (hix : i < tv.length) (hiy : i < gv.length) :
    (∀ a b, tv.getD i none = some a → gv.getD i none = some b →
        s.getD i none = some (100 * (a - b))) ∧
    ((tv.getD i none = none ∨ gv.getD i none = none) → s.getD i none = none) := by
  have hs2 : s = seriesScale 100 (seriesSub tv gv) := by
    simp [chart2Spread, htv, hgv] at hs
    exact hs.symm
  subst hs2
  constructor
  · intro a b ha hb
    rw [spread_getD tv gv i hix hiy, ha, hb]
    simp [cellSub, mul_comm]
  · intro h
    rw [spread_getD tv gv i hix hiy]
    rcases h with h | h <;> rw [h] <;> cases' hx : (tv.getD i none) with v <;>
      simp [cellSub]

/-- A two-row table used to instantiate C1: tenor "2Y" is present at row 0
and missing at row 1, GC is present at both. -/
def tblA : Table :=
  { cols := ["2Y", "GC"], times := [0, 1],
    rows := [[some 3, some 1], [none, some 2]] }

/-- Witness for C1 at a concrete table: the spread series is
`[some 200, none]` and its entry 0 is `100 * (3 - 1)`. -/
theorem spread_to_gc_correct_witness :
    chart2Spread tblA "2Y" = some [some 200, none] ∧
    ([some 200, none] : List Cell).getD 0 none = some (100 * ((3 : ℚ) - 1)) := by
  have h : chart2Spread tblA "2Y" = some [some 200, none] := by
    simp [chart2Spread, tblA, Table.getCol, gc_col, seriesScale, seriesSub,
      cellSub, List.findIdx?]
    norm_num
  exact ⟨h, (spread_to_gc_correct tblA "2Y" [some 3, none] [some 1, some 2]
    [some 200, none] (by decide) (by decide) h 0 (by decide) (by decide)).1 3 1
    (by decide) (by decide)⟩

lemma rollingStdSq100_getD (xs : List Cell) (i : ℕ) (hi : i < xs.length) :
    (rollingStdSq100 xs).getD i none =
      if i + 1 < 5 then none
      else match seqCells ((xs.drop (i + 1 - 5)).take 5) with
        | some w => some (10000 * sampleVar w)
        | none => none := by
  unfold rollingStdSq100
  rw [List.getD_eq_getElem?_getD, List.getElem?_map, List.getElem?_range hi]
  simp

/-- C2: each rolling-volatility series is missing at indices 0-3; at every
index `i ≥ 4` its window is exactly the 5 observations at row indices
`i-4 .. i`, and the output (embedded as the square of the plotted value,
see `rollingStdSq100`) is `10000 *` the sample variance (divisor `n - 1`)
of that window when all 5 observations are present, and missing when any
observation in the window is missing. -/
theorem rolling_vol_correct (xs : List Cell) (i : ℕ) (hi : i < xs.length) :
    (i < 4 → (rollingStdSq100 xs).getD i none = none) ∧
    (4 ≤ i →
      ((xs.drop (i - 4)).take 5).length = 5 ∧
      (∀ j, j < 5 → ((xs.drop (i - 4)).take 5)[j]? = xs[i - 4 + j]?) ∧
      (∀ w, seqCells ((xs.drop (i - 4)).take 5) = some w →
          (rollingStdSq100 xs).getD i none = some (10000 * sampleVar w)) ∧
      (seqCells ((xs.drop (i - 4)).take 5) = none →
          (rollingStdSq100 xs).getD i none = none)) := by
  have hmain := rollingStdSq100_getD xs i hi
  constructor
  · intro h4
    rw [hmain, if_pos (by omega)]
  · intro h4
    have h15 : i + 1 - 5 = i - 4 := by omega
    rw [h15] at hmain
    refine ⟨?_, ?_, ?_, ?_⟩
    · rw [List.length_take, List.length_drop]
      omega
    · intro j hj
      rw [List.getElem?_take_of_lt hj, List.getElem?_drop]
    · intro w hw
      rw [hmain, if_neg (by omega), hw]
    · intro hw
      rw [hmain, if_neg (by omega), hw]

/-- Witness for C2: on the fully present series `1,2,3,4,5`, index 4 of
the rolling series holds `10000 *` the sample variance of the window. -/
theorem rolling_vol_correct_witness :
    (rollingStdSq100 [some 1, some 2, some 3, some 4, some 5]).getD 4 none =
      some (10000 * sampleVar [1, 2, 3, 4, 5]) :=
  ((rolling_vol_correct [some 1, some 2, some 3, some 4, some 5] 4
      (by decide)).2 (by decide)).2.2.1 [1, 2, 3, 4, 5] (by decide)

lemma findIdx?_isSome_of_mem {c : String} {l : List String} (h : c ∈ l) :
    ∀ i, (List.findIdx? (fun x => x = c) l i).isSome := by
  induction l with
  | nil => simp at h
  | cons a l ih =>
    intro i
    rw [List.findIdx?_cons]
    by_cases hac : a = c
    · simp [hac]
    · have hc : c ∈ l := by
        rcases List.mem_cons.mp h with h1 | h1
        · exact absurd h1.symm hac
        · exact h1
      simp only [hac]
      simpa using ih hc (i + 1)

lemma idxOfAll_isSome {cols cs : List String} (h : ∀ c ∈ cs, c ∈ cols) :
    (idxOfAll cols cs).isSome := by
  induction cs with
  | nil => simp [idxOfAll]
  | cons c cs ih =>
    have h1 := findIdx?_isSome_of_mem (h c (by simp)) 0
    rcases Option.isSome_iff_exists.mp h1 with ⟨j, hj⟩
    have h2 := ih (fun x hx => h x (by simp [hx]))
    rcases Option.isSome_iff_exists.mp h2 with ⟨js, hjs⟩
    simp [idxOfAll, hj, hjs]

lemma selectCols_isSome {t : Table} {cs : List String} (h : ∀ c ∈ cs, c ∈ t.cols) :
    (t.selectCols cs).isSome := by
  unfold Table.selectCols
  simp only [Option.isSome_map']
  exact idxOfAll_isSome h

/-- A table whose columns are GC and all base tenors except "2Y": the
"Same-Day" group's "2Y" column is absent from the input. -/
def tblB : Table :=
  { cols := ["GC", "3Y", "5Y", "7Y", "10Y", "20Y", "30Y"],
    times := [0],
    rows := [[some 1, some 1, some 1, some 1, some 1, some 1, some 1]] }

/-- Counterexample to C3 as stated: with the ("Same-Day", "2Y") pair's
column absent, Chart 1's y-limit computation
`df[base_tenors + [gc_col]]` (line 77) raises a `KeyError` — modelled as
`none` — so the run does NOT still succeed. -/
theorem absent_columns_cex :
    ("2Y" ∉ tblB.cols) ∧ ylimBottom tblB = none := by
  decide

/-- C3 amended: each chart loop's `if col in df.columns` guard means the
effective column list of every group keeps exactly the listed columns that
are present, so absent tenors are silently omitted from the per-tenor
loops; but the whole run only succeeds in the unconditional selections
(Chart 1's y-limit, the heatmap and the correlation matrix) when GC and
all seven base tenors are present. -/
theorem absent_columns_amended :
    (∀ (t : Table) (cs : List String) (c : String),
        c ∈ effectiveCols t cs ↔ (c ∈ cs ∧ c ∈ t.cols)) ∧
    (∀ t : Table, (∀ c ∈ gc_col :: base_tenors, c ∈ t.cols) →
        (ylimBottom t).isSome ∧ (heatmapRows t).isSome ∧ (corrData t).isSome) := by
  constructor
  · intro t cs c
    simp [effectiveCols]
  · intro t h
    have hb : ∀ c ∈ base_tenors ++ [gc_col], c ∈ t.cols := by
      intro c hc
      apply h
      simp only [List.mem_append, List.mem_singleton, List.mem_cons] at hc ⊢
      tauto
    have hh : ∀ c ∈ heatmap_cols, c ∈ t.cols := by
      intro c hc
      apply h
      simpa [heatmap_cols] using hc
    refine ⟨?_, ?_, ?_⟩
    · unfold ylimBottom
      simp only [Option.isSome_map']
      exact selectCols_isSome hb
    · unfold heatmapRows
      simp only [Option.isSome_map']
      exact selectCols_isSome hh
    · unfold corrData
      simp only [Option.isSome_map']
      exact selectCols_isSome hh

/-- The full table with GC and all seven base tenor columns present. -/
def tblFull : Table :=
  { cols := ["GC", "2Y", "3Y", "5Y", "7Y", "10Y", "20Y", "30Y"],
    times := [0],
    rows := [[some 1, some 1, some 1, some 1, some 1, some 1, some 1, some 1]] }

/-- Witness for the amended C3: with every needed column present, the
three unconditional selections all succeed. -/
theorem absent_columns_amended_witness :
    (ylimBottom tblFull).isSome ∧ (heatmapRows tblFull).isSome ∧
      (corrData tblFull).isSome :=
  absent_columns_amended.2 tblFull (by decide)

/-- Counterexample to C4 as stated: the claimed positions for 100 rows
are what the code's `dtype=int` TRUNCATION produces, not what linear
spacing "rounded to nearest integer" produces — rounding the spaced
values 0, 19.8, 39.6, 59.4, 79.2, 99 gives positions 20 and 40 at the
second and third slots, which the code never selects. -/
theorem snapshot_positions_cex :
    snapshotPositions 100 = [0, 19, 39, 59, 79, 99] ∧
    snapshotPositionsRounded 100 = [0, 20, 40, 59, 79, 99] := by
  constructor
  · simp [snapshotPositions, List.range_succ]
    norm_num
    decide
  · simp [snapshotPositionsRounded, List.range_succ, round_eq]
    norm_num
    decide

/-- C4 amended: curve-snapshot selection picks `min 6 n` row positions,
linearly spaced from `0` to `n - 1` with each value truncated (floored)
to an integer — not rounded to nearest; for `n ≤ 6` every row is
selected, and for `n = 100` the selected positions are exactly
0, 19, 39, 59, 79, 99. -/
theorem snapshot_positions_amended :
    (∀ n : ℕ, n ≤ 6 → snapshotPositions n = List.range n) ∧
    (∀ n : ℕ, (snapshotPositions n).length = min 6 n) ∧
    snapshotPositions 100 = [0, 19, 39, 59, 79, 99] := by
  refine ⟨?_, ?_, ?_⟩
  · intro n hn
    interval_cases n <;>
      first
        | decide
        | (simp [snapshotPositions, List.range_succ]; norm_num; decide)
        | (simp [snapshotPositions, List.range_succ]; norm_num)
  · intro n
    unfold snapshotPositions
    by_cases h : min 6 n ≤ 1
    · rw [if_pos h, List.length_range]
    · rw [if_neg h, List.length_map, List.length_range]
  · simp [snapshotPositions, List.range_succ]
    norm_num
    decide

/-- Witness for the amended C4: on exactly 6 rows all 6 positions are
selected. -/
theorem snapshot_positions_amended_witness :
    snapshotPositions 6 = List.range 6 :=
  snapshot_positions_amended.1 6 (by decide)

lemma seqCells_eq_some_iff {l : List Cell} {v : List ℚ} :
    seqCells l = some v ↔ l = v.map some := by
  induction l generalizing v with
  | nil => cases v <;> simp [seqCells]
  | cons c l ih =>
    cases c with
    | none =>
      cases v <;> simp [seqCells]
    | some a =>
      cases v with
      | nil => simp [seqCells, Option.bind_eq_some]
      | cons b vs =>
        simp only [seqCells, Option.some_bind, Option.map_eq_some', List.map_cons,
          List.cons.injEq, Option.some.injEq]
        constructor
        · rintro ⟨ws, hws, rfl, rfl⟩
          exact ⟨rfl, ih.mp hws⟩
        · rintro ⟨rfl, hl⟩
          exact ⟨vs, ih.mpr hl, rfl, rfl⟩

lemma dotL_comm (u v : List ℚ) : dotL u v = dotL v u := by
  induction u generalizing v with
  | nil => cases v <;> simp [dotL]
  | cons a u ih =>
    cases v with
    | nil => simp [dotL]
    | cons b v => simp [dotL, ih, mul_comm]

lemma dotL_self_nonneg (u : List ℚ) : 0 ≤ dotL u u := by
  induction u with
  | nil => simp [dotL]
  | cons a u ih =>
    have ha : 0 ≤ a * a := mul_self_nonneg a
    simp only [dotL]
    linarith

/-- A two-row fully complete table on which the GC column is constant. -/
def tblConst : Table :=
  { cols := ["GC", "2Y", "3Y", "5Y", "7Y", "10Y", "20Y", "30Y"],
    times := [0, 1],
    rows := [[some 1, some 1, some 1, some 1, some 1, some 1, some 1, some 1],
             [some 1, some 1, some 1, some 1, some 1, some 1, some 1, some 1]] }

/-- The complete-row data matrix that `tblConst` yields. -/
def constM : List (List ℚ) :=
  [[1, 1, 1, 1, 1, 1, 1, 1], [1, 1, 1, 1, 1, 1, 1, 1]]

/-- Counterexample to C5 as stated: on a fully complete table whose GC
column is constant, the GC diagonal entry of the correlation matrix has a
zero denominator, so pandas renders it NaN (missing) — not 1.0. -/
theorem correlation_diag_cex :
    corrData tblConst = some constM ∧
    matCol constM 0 = [1, 1] ∧
    ¬ corrDefined (matCol constM 0) (matCol constM 0) := by
  refine ⟨by decide, by decide, ?_⟩
  intro h
  apply h
  norm_num [corrDenSq, corrNum, devs, dotL, matCol, constM]

/-- C5 amended: the correlation matrix is computed over exactly the
fully-complete rows of the GC + base-tenor sub-table; it is symmetric;
and each diagonal entry equals 1.0 exactly when its denominator is
nonzero (the column is non-constant over the complete rows) — a
zero-variance column instead yields a missing (NaN) diagonal entry. -/
theorem correlation_amended :
    (∀ (t : Table) (sel : List (List Cell)),
        t.selectCols heatmap_cols = some sel →
        corrData t = some (completeRows sel)) ∧
    (∀ (m : List (List Cell)) (r : List ℚ),
        r ∈ completeRows m ↔ r.map some ∈ m) ∧
    (∀ x y : List ℚ, corrNum x y = corrNum y x ∧ corrDenSq x y = corrDenSq y x) ∧
    (∀ x : List ℚ, corrDefined x x → corrIsOne x x) := by
  refine ⟨?_, ?_, ?_, ?_⟩
  · intro t sel hsel
    simp [corrData, hsel]
  · intro m r
    simp only [completeRows, List.mem_filterMap]
    constructor
    · rintro ⟨a, ha, hm⟩
      rwa [seqCells_eq_some_iff.mp hm] at ha
    · intro h
      exact ⟨r.map some, h, seqCells_eq_some_iff.mpr rfl⟩
  · intro x y
    exact ⟨dotL_comm _ _, by simp [corrDenSq, mul_comm]⟩
  · intro x h
    have hnn := dotL_self_nonneg (devs x)
    have hne : corrNum x x ≠ 0 := by
      intro h0
      exact h (by simp [corrDenSq, h0])
    refine ⟨h, ?_, by rw [corrDenSq, sq]⟩
    rcases lt_or_eq_of_le hnn with hlt | heq
    · exact hlt
    · exact absurd heq.symm hne

/-- Witness for the amended C5: the non-constant series `[1, 2]` has a
well-defined diagonal correlation entry equal to 1.0. -/
theorem correlation_amended_witness : corrIsOne [1, 2] [1, 2] :=
  correlation_amended.2.2.2 [1, 2]
    (by norm_num [corrDefined, corrDenSq, corrNum, devs, dotL])

/-- C6: the heatmap matrix holds exactly the (date, row) pairs of the
GC + base-tenor sub-table in which at least one cell is present: a row is
dropped iff ALL its selected cells are missing, so a partially missing
row is retained (with its missing cells blank). -/
theorem heatmap_rows_correct (t : Table) (sel : List (List Cell))
    (hm : List (ℕ × List Cell))
    (hsel : t.selectCols heatmap_cols = some sel)
    (hh : heatmapRows t = some hm) :
    ∀ p : ℕ × List Cell,
      p ∈ hm ↔ (p ∈ t.times.zip sel ∧ ∃ c ∈ p.2, c ≠ none) := by
  have hm2 : hm = (t.times.zip sel).filter (fun p => p.2.any (fun c => c.isSome)) := by
    simp [heatmapRows, hsel] at hh
    exact hh.symm
  subst hm2
  intro p
  simp [List.mem_filter, List.any_eq_true, Option.isSome_iff_ne_none]

/-- A fully labelled table whose first row is entirely missing and whose
second row has exactly one present cell. -/
def tblH : Table :=
  { cols := ["GC", "2Y", "3Y", "5Y", "7Y", "10Y", "20Y", "30Y"],
    times := [0, 1],
    rows := [[none, none, none, none, none, none, none, none],
             [some 1, none, none, none, none, none, none, none]] }

/-- Witness for C6: the all-missing row 0 of `tblH` is dropped and the
partially missing row 1 is retained. -/
theorem heatmap_rows_correct_witness :
    ((1 : ℕ), ([some 1, none, none, none, none, none, none, none] : List Cell)) ∈
      [((1 : ℕ), ([some 1, none, none, none, none, none, none, none] : List Cell))] ∧
    ((0 : ℕ), ([none, none, none, none, none, none, none, none] : List Cell)) ∉
      [((1 : ℕ), ([some 1, none, none, none, none, none, none, none] : List Cell))] := by
  have h := heatmap_rows_correct tblH tblH.rows
    [(1, [some 1, none, none, none, none, none, none, none])]
    (by decide) (by decide)
  constructor
  · exact (h (1, [some 1, none, none, none, none, none, none, none])).mpr
      ⟨by decide, some 1, by decide, by decide⟩
  · intro hmem
    have h0 := (h (0, [none, none, none, none, none, none, none, none])).mp hmem
    rcases h0.2 with ⟨c, hc, hne⟩
    have : c = none := by
      simpa using hc
    exact hne this

lemma cleanRows_times (pD : String → Option ℕ) (pN : String → Option ℚ)
    (rs : List (List String)) :
    (rs.filterMap (cleanRow pD pN)).map (fun p => p.1) =
      rs.filterMap (fun r => pD (r.headD "")) := by
  induction rs with
  | nil => rfl
  | cons r rs ih =>
    simp only [List.filterMap_cons]
    cases hd : pD (r.headD "") with
    | none =>
      simp only [cleanRow, hd, Option.map_none']
      exact ih
    | some d =>
      simp only [cleanRow, hd, Option.map_some', List.map_cons]
      rw [ih]

lemma cleanRows_rows (pD : String → Option ℕ) (pN : String → Option ℚ)
    (rs : List (List String)) :
    (rs.filterMap (cleanRow pD pN)).map (fun p => p.2) =
      (rs.filter (fun r => (pD (r.headD "")).isSome)).map
        (fun r => (r.drop 1).map pN) := by
  induction rs with
  | nil => rfl
  | cons r rs ih =>
    simp only [List.filterMap_cons, List.filter_cons]
    cases hd : pD (r.headD "") with
    | none =>
      simp only [cleanRow, hd, Option.map_none', Option.isSome_none]
      simpa using ih
    | some d =>
      simp only [cleanRow, hd, Option.map_some', Option.isSome_some, List.map_cons]
      simpa using ih

/-- C7: for any date and numeric parsers and any raw file with a summary
record, a header and data records, the loader succeeds and produces a
table whose columns are exactly the non-time header fields, whose rows are
exactly the data records with a parseable date (in order, every other cell
numeric-coerced with failures becoming missing) and whose date index holds
exactly the successfully parsed dates — no other row or column is added
or removed. -/
theorem loader_correct (pD : String → Option ℕ) (pN : String → Option ℚ)
    (summary header : List String) (dataRows : List (List String)) (t : Table)
    (h : loadClean pD pN (summary :: header :: dataRows) = some t) :
    t.cols = header.drop 1 ∧
    t.times = dataRows.filterMap (fun r => pD (r.headD "")) ∧
    t.rows = (dataRows.filter (fun r => (pD (r.headD "")).isSome)).map
      (fun r => (r.drop 1).map pN) := by
  have h2 : t = { cols := header.drop 1,
                  times := (dataRows.filterMap (cleanRow pD pN)).map (fun p => p.1),
                  rows := (dataRows.filterMap (cleanRow pD pN)).map (fun p => p.2) } := by
    simpa [loadClean] using h.symm
  subst h2
  exact ⟨rfl, cleanRows_times pD pN dataRows, cleanRows_rows pD pN dataRows⟩

/-- A concrete date parser for witnesses: knows the tokens "d1" and "d2". -/
def pD0 : String → Option ℕ :=
  fun s => if s = "d1" then some 1 else if s = "d2" then some 2 else none

/-- A concrete numeric parser for witnesses: knows only the token "2";
anything else (e.g. an error marker) is non-numeric and becomes missing. -/
def pN0 : String → Option ℚ :=
  fun s => if s = "2" then some 2 else none

/-- The table the loader yields on the concrete witness input below. -/
def tblL : Table :=
  { cols := ["GC"], times := [1, 2], rows := [[some 2], [none]] }

/-- Witness for C7: on a file with a summary record, header
`time, GC` and data records `(d1, 2)`, `(bad, 2)`, `(x, #DIV/0!)` the loader
keeps the two parseable-date records, coerces the error marker to missing
and keeps exactly one column. -/
theorem loader_correct_witness :
    tblL.cols = (["time", "GC"] : List String).drop 1 ∧
    tblL.times = ([["d1", "2"], ["bad", "2"], ["d2", "#DIV/0!"]] :
        List (List String)).filterMap (fun r => pD0 (r.headD "")) ∧
    tblL.rows = (([["d1", "2"], ["bad", "2"], ["d2", "#DIV/0!"]] :
        List (List String)).filter (fun r => (pD0 (r.headD "")).isSome)).map
      (fun r => (r.drop 1).map pN0) :=
  loader_correct pD0 pN0 ["summary"] ["time", "GC"]
    [["d1", "2"], ["bad", "2"], ["d2", "#DIV/0!"]] tblL (by decide)

/-- A raw input whose parseable dates arrive out of order and duplicated
("d2" parses to 2, "d1" to 1). -/
def linesC8 : List (List String) :=
  [["summary"], ["time", "GC"], ["d2", "2"], ["d1", "2"], ["d1", "2"]]

/-- The cleaned table for `linesC8`: date index `[2, 1, 1]`. -/
def tblC8 : Table :=
  { cols := ["GC"], times := [2, 1, 1], rows := [[some 2], [some 2], [some 2]] }

/-- Counterexample to C8 as stated: the loader neither sorts nor
deduplicates, so an input whose dates arrive out of order and duplicated
yields the cleaned date index `[2, 1, 1]`, which is neither unique nor
ascending. -/
theorem date_index_cex :
    loadClean pD0 pN0 linesC8 = some tblC8 ∧
    ¬ List.Pairwise (fun a b : ℕ => a < b) tblC8.times := by
  exact ⟨by decide, by decide⟩

/-- C8 amended: cleaning preserves the input file's row order — the
cleaned date index is exactly the sequence of successfully parsed dates
in input order — so it is unique and ascending exactly when the input's
parseable dates already are; the loader itself never sorts or
deduplicates. -/
theorem date_index_amended (pD : String → Option ℕ) (pN : String → Option ℚ)
    (summary header : List String) (dataRows : List (List String)) (t : Table)
    (h : loadClean pD pN (summary :: header :: dataRows) = some t) :
    t.times = dataRows.filterMap (fun r => pD (r.headD "")) ∧
    (List.Pairwise (fun a b : ℕ => a < b)
        (dataRows.filterMap (fun r => pD (r.headD ""))) →
      List.Pairwise (fun a b : ℕ => a < b) t.times) := by
  have h2 : t = { cols := header.drop 1,
                  times := (dataRows.filterMap (cleanRow pD pN)).map (fun p => p.1),
                  rows := (dataRows.filterMap (cleanRow pD pN)).map (fun p => p.2) } := by
    simpa [loadClean] using h.symm
  subst h2
  refine ⟨cleanRows_times pD pN dataRows, ?_⟩
  intro hp
  rw [cleanRows_times pD pN dataRows]
  exact hp

/-- Witness for the amended C8: an input whose two parseable dates are
already increasing yields a strictly increasing cleaned date index. -/
theorem date_index_amended_witness :
    List.Pairwise (fun a b : ℕ => a < b) tblL.times :=
  (date_index_amended pD0 pN0 ["summary"] ["time", "GC"]
      [["d1", "2"], ["bad", "2"], ["d2", "#DIV/0!"]] tblL (by decide)).2
    (by decide)

lemma listMin_cons (a : ℚ) (l : List ℚ) :
    listMin (a :: l) =
      match listMin l with
      | none => some a
      | some y => some (min a y) := rfl

lemma listMin_spec {l : List ℚ} {v : ℚ} (h : listMin l = some v) :
    v ∈ l ∧ ∀ w ∈ l, v ≤ w := by
  induction l generalizing v with
  | nil => simp [listMin] at h
  | cons a l ih =>
    rw [listMin_cons] at h
    cases hl : listMin l with
    | none =>
      rw [hl] at h
      have hav : a = v := by
        injection h
      have hnil : l = [] := by
        cases l with
        | nil => rfl
        | cons b m =>
          rw [listMin_cons] at hl
          cases hm : listMin m <;> rw [hm] at hl <;> simp at hl
      subst hnil
      subst hav
      exact ⟨by simp, by intro w hw; simp at hw; rw [hw]⟩
    | some y =>
      rw [hl] at h
      have hmv : min a y = v := by
        injection h
      obtain ⟨hy, hall⟩ := ih hl
      subst hmv
      constructor
      · rcases min_choice a y with hc | hc <;> rw [hc]
        · exact List.mem_cons_self a l
        · exact List.mem_cons_of_mem a hy
      · intro w hw
        rcases List.mem_cons.mp hw with hw1 | hw2
        · rw [hw1]
          exact min_le_left a y
        · exact le_trans (min_le_right a y) (hall w hw2)

/-- C9: whenever Chart 1's column selection succeeds and at least one
value is present, the y-axis lower bound equals
`max 0 (m - 0.5)` where `m` is the minimum over all present values of the
GC and base-tenor columns. -/
theorem ylim_correct (t : Table) (sel : List (List Cell)) (v : ℚ)
    (hsel : t.selectCols (base_tenors ++ [gc_col]) = some sel)
    (hmin : listMin (presentVals sel) = some v) :
    ylimBottom t = some (max 0 (v - 1/2)) ∧
    v ∈ presentVals sel ∧ ∀ w ∈ presentVals sel, v ≤ w := by
  obtain ⟨h1, h2⟩ := listMin_spec hmin
  refine ⟨?_, h1, h2⟩
  simp [ylimBottom, hsel, hmin]

/-- The selected matrix of `tblFull` for Chart 1's y-limit (base tenors
first, then GC, per `base_tenors ++ [gc_col]`). -/
def selFull : List (List Cell) :=
  [[some 1, some 1, some 1, some 1, some 1, some 1, some 1, some 1]]

/-- Witness for C9: on the all-ones table the lower bound is
`max 0 (1 - 0.5)`. -/
theorem ylim_correct_witness :
    ylimBottom tblFull = some (max 0 ((1 : ℚ) - 1/2)) :=
  (ylim_correct tblFull selFull 1 (by decide) (by decide)).1

lemma findIdx?_eq_of_first {d : ℕ} {l : List ℕ} {i : ℕ}
    (hi : l[i]? = some d)
    (hfirst : ∀ k, k < i → l[k]? ≠ some d) :
    ∀ s, List.findIdx? (fun x => x = d) l s = some (s + i) := by
  induction l generalizing i with
  | nil => simp at hi
  | cons a l ih =>
    intro s
    cases i with
    | zero =>
      have ha : a = d := by simpa using hi
      rw [List.findIdx?_cons]
      simp [ha]
    | succ n =>
      have hne : ¬ (a = d) := by
        have h0 := hfirst 0 (Nat.succ_pos n)
        simpa using h0
      rw [List.findIdx?_cons]
      simp only [hne, decide_eq_true_eq, if_false]
      have hi2 : l[n]? = some d := by simpa using hi
      have hf2 : ∀ k, k < n → l[k]? ≠ some d := by
        intro k hk
        have hk1 := hfirst (k + 1) (by omega)
        simpa using hk1
      rw [ih hi2 hf2 (s + 1)]
      congr 1
      omega

/-- C10: for each selected snapshot slot the plotted row is the one
looked up by timestamp equality, and that lookup returns the FIRST row of
the cleaned table whose timestamp equals the date — so when a selected
row's timestamp also occurs at an earlier row position, the earlier row's
values are plotted instead, and two selected slots with equal timestamps
plot the very same (duplicated) curve. -/
theorem snapshot_lookup_first (t : Table) (d : ℕ) (i : ℕ)
    (hi : t.times[i]? = some d)
    (hfirst : ∀ k, k < i → t.times[k]? ≠ some d) :
    firstRowWithTime t d = t.rows[i]? ∧
    (∀ (a pa : ℕ), (snapshotPositions t.times.length)[a]? = some pa →
        (snapshotPlottedRows t)[a]? =
          some (firstRowWithTime t (t.times.getD pa 0))) ∧
    (∀ (a b pa pb : ℕ),
        (snapshotPositions t.times.length)[a]? = some pa →
        (snapshotPositions t.times.length)[b]? = some pb →
        t.times.getD pa 0 = t.times.getD pb 0 →
        (snapshotPlottedRows t)[a]? = (snapshotPlottedRows t)[b]?) := by
  refine ⟨?_, ?_, ?_⟩
  · unfold firstRowWithTime
    rw [findIdx?_eq_of_first hi hfirst 0]
    simp
  · intro a pa hpa
    unfold snapshotPlottedRows
    rw [List.getElem?_map, hpa]
    rfl
  · intro a b pa pb hpa hpb heq
    unfold snapshotPlottedRows
    rw [List.getElem?_map, List.getElem?_map, hpa, hpb]
    simp only [List.getD_eq_getElem?_getD] at heq
    simp [heq]

/-- A table with a duplicated timestamp 7 at rows 0 and 1 holding
different values. -/
def tblD : Table :=
  { cols := ["GC"], times := [7, 7], rows := [[some 1], [some 2]] }

/-- Witness for C10: looking up timestamp 7 in `tblD` returns row 0 (the
first occurrence), not row 1. -/
theorem snapshot_lookup_first_witness :
    firstRowWithTime tblD 7 = tblD.rows[0]? :=
  (snapshot_lookup_first tblD 7 0 (by decide)
      (fun k hk => absurd hk (Nat.not_lt_zero k))).1
